import Mathlib

/-!
Shallow embedding of `dewallet_cc.go` (package `main` of the dewallet
identity chaincode).

Conventions of the embedding:

* Ledger byte payloads are an abstract type `β`.  JSON (un)marshalling is an
  abstract `Codec` record, since `encoding/json` is external to the repository.
  Every `json.Unmarshal` call in the source discards the returned error, so
  each handler computes `(decode s).getD zero`: a failed decode leaves the
  target struct at its zero value, exactly as the Go call sites behave.
* The chaincode stub is `Stub`: a key/value state together with failure
  injection for `GetState` and `PutState` (the backing store is an external
  collaborator that may error).  A failed `PutState` persists nothing.
* `hex.DecodeString` and `base64.StdEncoding.DecodeString` are modelled
  concretely, following the Go standard library semantics: hex decoding fails
  on odd length or a non-hex digit; base64 decoding skips CR and LF, decodes
  complete quanta, and on a corrupt quantum returns the bytes decoded so far
  together with an error flag (the Go function returns partial output).
  `x509.ParsePKIXPublicKey` and `rsa.VerifyPKCS1v15` over the SHA-256 digest
  are abstracted as a `CryptoModel` parameter.
* `pb.Response` is `Response β`: `success payload | error msg`.  Error
  messages follow the source format strings; dynamic detail text coming from
  external library errors (the `%s` arguments) is abstracted away.
* The Go handlers index `args[0]` and `args[1]` without a length check and
  would panic on a short argument list; the embedding uses `List.getD` with
  the empty string, and every concrete instance used below supplies the
  arguments the source assumes.
-/

namespace Dewallet

/-- The `Key` struct of the source: association between an allowed user's
username (`for` in JSON) and the encrypted key that decrypts the user data. -/
structure Key where
  owner : String
  key : String
  deriving DecidableEq

/-- The `Identity` struct of the source. -/
structure Identity where
  username : String
  publicKey : String
  ePublicKey : String
  sPublicKey : String
  data : String
  verified : String
  keys : List Key
  deriving DecidableEq

/-- The zero value of `Identity` in Go: all strings empty, nil slice. -/
def zeroIdentity : Identity := ⟨"", "", "", "", "", "", []⟩

/-- `updateUserDataRequest` struct of the source. -/
structure updateUserDataRequest where
  username : String
  data : String
  deriving DecidableEq

/-- `addKeyRequest` struct of the source. -/
structure addKeyRequest where
  username : String
  owner : String
  key : String
  deriving DecidableEq

/-- `addKeyResponse` struct of the source. -/
structure addKeyResponse where
  owner : String
  key : String
  deriving DecidableEq

/-- `getPublicKeyRequest` struct of the source. -/
structure getPublicKeyRequest where
  username : String
  deriving DecidableEq

/-- `getPublicKeyResponse` struct of the source. -/
structure getPublicKeyResponse where
  publicKey : String
  ePublicKey : String
  deriving DecidableEq

/-- `getUserDataRequest` struct of the source. -/
structure getUserDataRequest where
  username : String
  owner : String
  deriving DecidableEq

/-- `getUserDataResponse` struct of the source. -/
structure getUserDataResponse where
  publicKey : String
  ePublicKey : String
  sPublicKey : String
  data : String
  key : String
  deriving DecidableEq

/-- `pb.Response`: `shim.Success(payload)` or `shim.Error(msg)`. -/
inductive Response (β : Type) where
  | success (payload : β)
  | error (msg : String)
  deriving DecidableEq

/-- The chaincode stub: ledger state plus failure injection for the external
store.  `getFails k` makes `GetState k` return an error; `putErr k` makes
`PutState k _` return the given error message (and persist nothing). -/
structure Stub (β : Type) where
  state : String → Option β
  getFails : String → Bool
  putErr : String → Option String

variable {β : Type}

/-- A successful `PutState k v`. -/
def Stub.put (st : Stub β) (k : String) (v : β) : Stub β :=
  { st with state := fun q => if q = k then some v else st.state q }

/-- Abstract JSON codec: decoders for each request struct (returning `none`
when `json.Unmarshal` would report an error, in which case the Go target
struct keeps its zero value), plus encoders for the marshalled outputs. -/
structure Codec (β : Type) where
  decIdentity : String → Option Identity
  decIdentityBytes : β → Option Identity
  encIdentity : Identity → β
  decUpdateUserDataRequest : String → Option updateUserDataRequest
  decAddKeyRequest : String → Option addKeyRequest
  decGetPublicKeyRequest : String → Option getPublicKeyRequest
  decGetUserDataRequest : String → Option getUserDataRequest
  encAddKeyResponse : addKeyResponse → β
  encGetPublicKeyResponse : getPublicKeyResponse → β
  encGetUserDataResponse : getUserDataResponse → β

/-- Marshalling an `Identity` and unmarshalling it again restores it. -/
def Codec.RoundTrip (c : Codec β) : Prop :=
  ∀ i : Identity, c.decIdentityBytes (c.encIdentity i) = some i

/-- Value of a hexadecimal digit character, as accepted by Go `encoding/hex`. -/
def hexDigit? (c : Char) : Option Nat :=
  if '0' ≤ c ∧ c ≤ '9' then some (c.toNat - 48)
  else if 'a' ≤ c ∧ c ≤ 'f' then some (c.toNat - 87)
  else if 'A' ≤ c ∧ c ≤ 'F' then some (c.toNat - 55)
  else none

/-- Hex decoding of a character list: fails on odd length or a non-hex digit,
as Go `hex.DecodeString` reports an error in exactly those cases. -/
def hexDecodeList : List Char → Option (List Nat)
  | [] => some []
  | [_] => none
  | a :: b :: rest =>
    match hexDigit? a, hexDigit? b, hexDecodeList rest with
    | some ha, some hb, some t => some ((16 * ha + hb) :: t)
    | _, _, _ => none

/-- Go `hex.DecodeString`, up to the error value. -/
def hexDecodeString (s : String) : Option (List Nat) :=
  hexDecodeList s.data

/-- Value of a standard-alphabet base64 digit character. -/
def b64Digit? (c : Char) : Option Nat :=
  if 'A' ≤ c ∧ c ≤ 'Z' then some (c.toNat - 65)
  else if 'a' ≤ c ∧ c ≤ 'z' then some (c.toNat - 71)
  else if '0' ≤ c ∧ c ≤ '9' then some (c.toNat + 4)
  else if c = '+' then some 62
  else if c = '/' then some 63
  else none

/-- Quantum-by-quantum base64 decoding.  Returns the decoded bytes together
with an ok flag; on a corrupt quantum it returns the bytes of the preceding
complete quanta and `false`, matching Go's `DecodeString`, which returns the
bytes written before the `CorruptInputError`. -/
def b64Quanta : List Char → List Nat × Bool
  | [] => ([], true)
  | c1 :: c2 :: c3 :: c4 :: rest =>
    match b64Digit? c1, b64Digit? c2, b64Digit? c3, b64Digit? c4 with
    | some d1, some d2, some d3, some d4 =>
      let t := b64Quanta rest
      ((d1 * 4 + d2 / 16) :: ((d2 % 16) * 16 + d3 / 4) :: ((d3 % 4) * 64 + d4) :: t.1, t.2)
    | some d1, some d2, some d3, none =>
      if c4 = '=' ∧ rest = [] then ([d1 * 4 + d2 / 16, (d2 % 16) * 16 + d3 / 4], true)
      else ([], false)
    | some d1, some d2, none, _ =>
      if c3 = '=' ∧ c4 = '=' ∧ rest = [] then ([d1 * 4 + d2 / 16], true)
      else ([], false)
    | _, _, _, _ => ([], false)
  | _ => ([], false)

/-- Go `base64.StdEncoding.DecodeString`: CR and LF are skipped, then the
input is decoded in four-character quanta.  The second component is the ok
flag (`false` corresponds to a non-nil error). -/
def base64DecodeString (s : String) : List Nat × Bool :=
  b64Quanta (s.data.filter (fun c => !(c == '\n' || c == '\r')))

/-- Result of `x509.ParsePKIXPublicKey` as the type switch in the source sees
it: an RSA public key (abstracted to a handle) or a key of any other type. -/
inductive ParsedKey where
  | rsa (handle : Nat)
  | other
  deriving DecidableEq

/-- Abstract model of the external crypto primitives: `parsePKIX` is
`x509.ParsePKIXPublicKey` on the decoded key bytes; `verifyPKCS1v15` is
`rsa.VerifyPKCS1v15` of the SHA-256 digest of the message against the decoded
signature bytes, for the given RSA key handle. -/
structure CryptoModel where
  parsePKIX : List Nat → Option ParsedKey
  verifyPKCS1v15 : Nat → String → List Nat → Bool

/-- The four error classes `VerifySignature` can report. -/
inductive VerifErr where
  | encoding
  | keyFormat
  | notRSA
  | sigInvalid
  deriving DecidableEq

/-- Static part of the source's error format strings (the appended `%s`
details come from external library errors and are abstracted away). -/
def VerifErr.message : VerifErr → String
  | .encoding => "Error in decoding signature"
  | .keyFormat => "Error in parsing key"
  | .notRSA => "Key is not RSA"
  | .sigInvalid => "Error in verifying signature"

/-- `VerifySignature` of the source.  The message is `args[0]`, the signature
is hex-decoded from `args[1]`.  Note that the error of the base64 decode of
`publicKey` is overwritten by the parse step in the source
(`pkBytes, err := base64...; pk, err := x509.ParsePKIXPublicKey(pkBytes)`),
so only the parse failure is checked and the partially decoded bytes are fed
to the parser; the embedding reproduces this by using only the first
component of `base64DecodeString`. -/
def VerifySignature (C : CryptoModel) (args : List String) (publicKey : String) :
    Except VerifErr Unit :=
  match hexDecodeString (args.getD 1 "") with
  | none => .error .encoding
  | some s =>
    match C.parsePKIX (base64DecodeString publicKey).1 with
    | none => .error .keyFormat
    | some (.rsa k) =>
      if C.verifyPKCS1v15 k (args.getD 0 "") s then .ok () else .error .sigInvalid
    | some .other => .error .notRSA

/-- Body of `Register` after the unmarshal of `args[0]`: force `keys` to the
empty slice, marshal, `PutState` under the identity's username. -/
def registerBody (c : Codec β) (st : Stub β) (i0 : Identity) : Response β × Stub β :=
  let i : Identity := { i0 with keys := [] }
  let iBytes := c.encIdentity i
  match st.putErr i.username with
  | some e => (.error e, st)
  | none => (.success iBytes, st.put i.username iBytes)

/-- `Register` of the source. -/
def Register (c : Codec β) (st : Stub β) (args : List String) : Response β × Stub β :=
  registerBody c st ((c.decIdentity (args.getD 0 "")).getD zeroIdentity)

/-- Body of `UpdateUserData` after the unmarshal of `args[0]`. -/
def updateUserDataBody (C : CryptoModel) (c : Codec β) (st : Stub β)
    (args : List String) (r : updateUserDataRequest) : Response β × Stub β :=
  if st.getFails r.username then (.error "Failed to get state", st)
  else
    match st.state r.username with
    | none => (.error "Username not found", st)
    | some iBytes0 =>
      let i0 := (c.decIdentityBytes iBytes0).getD zeroIdentity
      match VerifySignature C args i0.sPublicKey with
      | .error e => (.error ("Can\x27t verify signature " ++ e.message), st)
      | .ok _ =>
        let i : Identity := { i0 with data := r.data }
        let iBytes := c.encIdentity i
        match st.putErr i.username with
        | some e => (.error e, st)
        | none => (.success iBytes, st.put i.username iBytes)

/-- `UpdateUserData` of the source. -/
def UpdateUserData (C : CryptoModel) (c : Codec β) (st : Stub β)
    (args : List String) : Response β × Stub β :=
  updateUserDataBody C c st args
    ((c.decUpdateUserDataRequest (args.getD 0 "")).getD ⟨"", ""⟩)

/-- Body of `AddKey` after the unmarshal of `args[0]`. -/
def addKeyBody (C : CryptoModel) (c : Codec β) (st : Stub β)
    (args : List String) (r : addKeyRequest) : Response β × Stub β :=
  if st.getFails r.username then (.error "Failed to get state", st)
  else
    match st.state r.username with
    | none => (.error "Username not found", st)
    | some iBytes0 =>
      let key : Key := ⟨r.owner, r.key⟩
      let i0 := (c.decIdentityBytes iBytes0).getD zeroIdentity
      match VerifySignature C args i0.sPublicKey with
      | .error e => (.error ("Can\x27t verify signature " ++ e.message), st)
      | .ok _ =>
        let i : Identity := { i0 with keys := i0.keys ++ [key] }
        let iBytes := c.encIdentity i
        match st.putErr i.username with
        | some e => (.error e, st)
        | none =>
          (.success (c.encAddKeyResponse ⟨r.owner, r.key⟩), st.put i.username iBytes)

/-- `AddKey` of the source. -/
def AddKey (C : CryptoModel) (c : Codec β) (st : Stub β)
    (args : List String) : Response β × Stub β :=
  addKeyBody C c st args ((c.decAddKeyRequest (args.getD 0 "")).getD ⟨"", "", ""⟩)

/-- Body of `GetPublicKey` after the unmarshal of `args[0]`. -/
def getPublicKeyBody (c : Codec β) (st : Stub β) (req : getPublicKeyRequest) :
    Response β × Stub β :=
  if st.getFails req.username then (.error "Failed to get state", st)
  else
    match st.state req.username with
    | none => (.error "Username not found", st)
    | some iBytes =>
      let i := (c.decIdentityBytes iBytes).getD zeroIdentity
      (.success (c.encGetPublicKeyResponse ⟨i.publicKey, i.ePublicKey⟩), st)

/-- `GetPublicKey` of the source. -/
def GetPublicKey (c : Codec β) (st : Stub β) (args : List String) :
    Response β × Stub β :=
  getPublicKeyBody c st ((c.decGetPublicKeyRequest (args.getD 0 "")).getD ⟨""⟩)

/-- Body of `GetUserData` after the unmarshal of `args[0]`.  The `for` loop
over `i.Keys` is the fold: each matching entry overwrites `keyResult`, so the
last match wins and the zero value is the empty string. -/
def getUserDataBody (c : Codec β) (st : Stub β) (req : getUserDataRequest) :
    Response β × Stub β :=
  if st.getFails req.username then (.error "Failed to get state", st)
  else
    match st.state req.username with
    | none => (.error "Username not found", st)
    | some iBytes =>
      let i := (c.decIdentityBytes iBytes).getD zeroIdentity
      let keyResult := i.keys.foldl
        (fun acc k => if k.owner == req.owner then k.key else acc) ""
      (.success (c.encGetUserDataResponse
        ⟨i.publicKey, i.ePublicKey, i.sPublicKey, i.data, keyResult⟩), st)

/-- `GetUserData` of the source. -/
def GetUserData (c : Codec β) (st : Stub β) (args : List String) :
    Response β × Stub β :=
  getUserDataBody c st ((c.decGetUserDataRequest (args.getD 0 "")).getD ⟨"", ""⟩)

/-- `Invoke` of the source: dispatch on the function name by exact string
comparison.  Note the fallthrough error message interpolates `args[0]` (the
first parameter), not `function`. -/
def Invoke (C : CryptoModel) (c : Codec β) (st : Stub β)
    (function : String) (args : List String) : Response β × Stub β :=
  if function = "Register" then Register c st args
  else if function = "UpdateUserData" then UpdateUserData C c st args
  else if function = "AddKey" then AddKey C c st args
  else if function = "GetPublicKey" then GetPublicKey c st args
  else if function = "GetUserData" then GetUserData c st args
  else (.error ("Unknown action, check the first argument, must be one of \x27Register\x27, \x27GetPublicKey\x27. But got: " ++ args.getD 0 ""), st)

/-- The keys sequence stored under `k` (empty when `k` is absent or its bytes
do not decode). -/
def keysAt (c : Codec β) (st : Stub β) (k : String) : List Key :=
  match st.state k with
  | none => []
  | some b => ((c.decIdentityBytes b).getD zeroIdentity).keys

/-- Every stored value decodes to an identity whose username field equals its
storage key. -/
def WFStub (c : Codec β) (st : Stub β) : Prop :=
  ∀ k b, st.state k = some b →
    ∃ i, c.decIdentityBytes b = some i ∧ i.username = k

/-- Ledger states reachable from an empty state through `Invoke` steps (with
arbitrary failure injection fixed at the start). -/
inductive Reachable (C : CryptoModel) (c : Codec β) : Stub β → Prop where
  | init (g : String → Bool) (p : String → Option String) :
      Reachable C c ⟨fun _ => none, g, p⟩
  | step {st : Stub β} (f : String) (args : List String) :
      Reachable C c st → Reachable C c (Invoke C c st f args).2

/-- Specification-side selector: the key of the last (most recently appended)
entry of `ks` whose owner is `o`, or the empty string if no entry matches. -/
def lastKeyFor (ks : List Key) (o : String) : String :=
  match ks.reverse.find? (fun k => k.owner == o) with
  | some k => k.key
  | none => ""

/-- `msg` mentions `s`: `s` occurs in `msg` as a contiguous substring. -/
def strMentions (msg s : String) : Prop :=
  s.data <:+: msg.data

/-- Concrete payload type instantiating the abstract ledger bytes for the
executable test instances. -/
inductive TestVal where
  | ident (i : Identity)
  | gpk (r : getPublicKeyResponse)
  | gud (r : getUserDataResponse)
  | akr (r : addKeyResponse)
  deriving DecidableEq

/-- Identity submitted by the concrete `Register` payload: note the non-empty
input `keys`, and an `sPublicKey` that base64-decodes to `[0, 0, 0]`. -/
def regAlicePayload : Identity :=
  ⟨"alice", "PK", "EPK", "AAAA", "d0", "yes", [⟨"x", "y"⟩]⟩

/-- The identity `Register` actually stores for `regAlicePayload`. -/
def regAliceStored : Identity := { regAlicePayload with keys := [] }

/-- Concrete codec over `TestVal`: each designated payload string decodes to a
fixed request, everything else fails to unmarshal. -/
def testCodec : Codec TestVal where
  decIdentity := fun s => if s = "rA" then some regAlicePayload else none
  decIdentityBytes := fun v =>
    match v with
    | .ident i => some i
    | _ => none
  encIdentity := .ident
  decUpdateUserDataRequest := fun s => if s = "uA" then some ⟨"alice", "d2"⟩ else none
  decAddKeyRequest := fun s => if s = "aK" then some ⟨"alice", "bob", "K"⟩ else none
  decGetPublicKeyRequest := fun s => if s = "gA" then some ⟨"alice"⟩ else none
  decGetUserDataRequest := fun s => if s = "dA" then some ⟨"alice", "bob"⟩ else none
  encAddKeyResponse := .akr
  encGetPublicKeyResponse := .gpk
  encGetUserDataResponse := .gud

/-- Crypto model whose RSA verification always accepts: `[0, 0, 0]` parses as
an RSA key, anything else fails to parse. -/
def testCrypto : CryptoModel where
  parsePKIX := fun b => if b = [0, 0, 0] then some (.rsa 0) else none
  verifyPKCS1v15 := fun _ _ _ => true

/-- Crypto model whose RSA verification always rejects. -/
def failCrypto : CryptoModel where
  parsePKIX := fun b => if b = [0, 0, 0] then some (.rsa 0) else none
  verifyPKCS1v15 := fun _ _ _ => false

/-- Empty ledger with no failure injection. -/
def emptyStub : Stub TestVal :=
  ⟨fun _ => none, fun _ => false, fun _ => none⟩

/-- State after registering alice. -/
def stA : Stub TestVal :=
  (Invoke testCrypto testCodec emptyStub "Register" ["rA"]).2

/-- State after registering alice and granting bob a key. -/
def stAK : Stub TestVal :=
  (Invoke testCrypto testCodec stA "AddKey" ["aK", "00"]).2

/-! ## Helper lemmas -/

/-- `GetPublicKey` never writes to the ledger. -/
theorem getPublicKeyBody_state (c : Codec β) (st : Stub β) (req : getPublicKeyRequest) :
    (getPublicKeyBody c st req).2 = st := by
  unfold getPublicKeyBody
  split
  · rfl
  · split <;> rfl

/-- `GetUserData` never writes to the ledger. -/
theorem getUserDataBody_state (c : Codec β) (st : Stub β) (req : getUserDataRequest) :
    (getUserDataBody c st req).2 = st := by
  unfold getUserDataBody
  split
  · rfl
  · split <;> rfl

/-- If `Register` answers with an error, the ledger is untouched. -/
theorem Register_error_frame (c : Codec β) (st : Stub β) (args : List String) (m : String) :
    (Register c st args).1 = .error m → (Register c st args).2 = st := by
  unfold Register registerBody
  dsimp only
  split
  · intro _; rfl
  · intro h; simp at h

/-- If `UpdateUserData` answers with an error, the ledger is untouched. -/
theorem UpdateUserData_error_frame (C : CryptoModel) (c : Codec β) (st : Stub β)
    (args : List String) (m : String) :
    (UpdateUserData C c st args).1 = .error m → (UpdateUserData C c st args).2 = st := by
  unfold UpdateUserData updateUserDataBody
  dsimp only
  split
  · intro _; rfl
  · split
    · intro _; rfl
    · split
      · intro _; rfl
      · split
        · intro _; rfl
        · intro h; simp at h

/-- If `AddKey` answers with an error, the ledger is untouched. -/
theorem AddKey_error_frame (C : CryptoModel) (c : Codec β) (st : Stub β)
    (args : List String) (m : String) :
    (AddKey C c st args).1 = .error m → (AddKey C c st args).2 = st := by
  unfold AddKey addKeyBody
  dsimp only
  split
  · intro _; rfl
  · split
    · intro _; rfl
    · split
      · intro _; rfl
      · split
        · intro _; rfl
        · intro h; simp at h

/-! ## Claim theorems -/

/-- C10: GetPublicKey and GetUserData never write to the ledger state: for
every invocation of either handler, whether it succeeds or fails, the stored
state of every username is unchanged afterwards. -/
theorem C10_queries_read_only (c : Codec β) (st : Stub β) (args : List String) :
    (GetPublicKey c st args).2 = st ∧ (GetUserData c st args).2 = st :=
  ⟨getPublicKeyBody_state c st _, getUserDataBody_state c st _⟩

/-- C3: For every invocation of every handler, if the handler returns an error
response, the ledger state is exactly the state before the invocation: no
partial write is persisted, because the state write is the last step of every
handler. -/
theorem C3_error_response_leaves_state (C : CryptoModel) (c : Codec β) (st : Stub β)
    (f : String) (args : List String) (m : String) :
    (Invoke C c st f args).1 = .error m → (Invoke C c st f args).2 = st := by
  unfold Invoke
  split_ifs
  · exact Register_error_frame c st args m
  · exact UpdateUserData_error_frame C c st args m
  · exact AddKey_error_frame C c st args m
  · intro _; exact getPublicKeyBody_state c st _
  · intro _; exact getUserDataBody_state c st _
  · intro _; rfl

/-- Witness for C3: a concrete failing invocation (unknown function) leaves
the ledger untouched. -/
theorem C3_error_response_leaves_state_witness :
    (Invoke testCrypto testCodec emptyStub "Nope" ["x"]).2 = emptyStub :=
  C3_error_response_leaves_state testCrypto testCodec emptyStub "Nope" ["x"]
    "Unknown action, check the first argument, must be one of \x27Register\x27, \x27GetPublicKey\x27. But got: x"
    (by decide)

/-- C1: For every stored identity and every UpdateUserData or AddKey
invocation, the handler verifies the signature (args[1]) over the payload
(args[0]) against the `sPublicKey` field of the identity currently stored
under the requested username, and fails with an authentication error when
that verification fails — for every payload whatsoever, in particular one
carrying an `sPublicKey` of its own; no caller-supplied key is used. -/
theorem C1_mutations_verify_against_stored_key (C : CryptoModel) (c : Codec β)
    (st : Stub β) (args : List String) :
    (∀ r b i e, c.decUpdateUserDataRequest (args.getD 0 "") = some r →
      st.getFails r.username = false →
      st.state r.username = some b →
      c.decIdentityBytes b = some i →
      VerifySignature C args i.sPublicKey = .error e →
      UpdateUserData C c st args =
        (.error ("Can\x27t verify signature " ++ e.message), st)) ∧
    (∀ r b i e, c.decAddKeyRequest (args.getD 0 "") = some r →
      st.getFails r.username = false →
      st.state r.username = some b →
      c.decIdentityBytes b = some i →
      VerifySignature C args i.sPublicKey = .error e →
      AddKey C c st args =
        (.error ("Can\x27t verify signature " ++ e.message), st)) := by
  constructor
  · intro r b i e hdec hget hb hi hv
    unfold UpdateUserData updateUserDataBody
    rw [hdec, Option.getD_some, if_neg (by simp [hget]), hb]
    dsimp only
    rw [hi, Option.getD_some, hv]
  · intro r b i e hdec hget hb hi hv
    unfold AddKey addKeyBody
    rw [hdec, Option.getD_some, if_neg (by simp [hget]), hb]
    dsimp only
    rw [hi, Option.getD_some, hv]

/-- Witness for C1: with a crypto model rejecting the signature, both
mutating handlers fail with the authentication error and leave the state. -/
theorem C1_mutations_verify_against_stored_key_witness :
    UpdateUserData failCrypto testCodec stA ["uA", "00"] =
      (.error ("Can\x27t verify signature " ++ VerifErr.sigInvalid.message), stA) ∧
    AddKey failCrypto testCodec stA ["aK", "00"] =
      (.error ("Can\x27t verify signature " ++ VerifErr.sigInvalid.message), stA) :=
  ⟨(C1_mutations_verify_against_stored_key failCrypto testCodec stA ["uA", "00"]).1
      ⟨"alice", "d2"⟩ (.ident regAliceStored) regAliceStored .sigInvalid
      rfl rfl rfl rfl rfl,
    (C1_mutations_verify_against_stored_key failCrypto testCodec stA ["aK", "00"]).2
      ⟨"alice", "bob", "K"⟩ (.ident regAliceStored) regAliceStored .sigInvalid
      rfl rfl rfl rfl rfl⟩

/-- C2: For every Register invocation whose payload parses as an Identity,
the record stored under the payload's username equals the parsed payload with
the keys field replaced by the empty sequence (regardless of any keys
supplied in the input), unconditionally overwriting any record previously
stored at that username, and the response payload is the serialization of
that stored Identity. -/
theorem C2_register_forces_empty_keys (c : Codec β) (st : Stub β) (args : List String)
    (i : Identity)
    (hdec : c.decIdentity (args.getD 0 "") = some i)
    (hput : st.putErr i.username = none) :
    Register c st args =
      (.success (c.encIdentity { i with keys := [] }),
        st.put i.username (c.encIdentity { i with keys := [] })) ∧
    ((Register c st args).2).state i.username =
      some (c.encIdentity { i with keys := [] }) := by
  have h1 : Register c st args =
      (.success (c.encIdentity { i with keys := [] }),
        st.put i.username (c.encIdentity { i with keys := [] })) := by
    unfold Register registerBody
    rw [hdec, Option.getD_some]
    dsimp only
    rw [hput]
  refine ⟨h1, ?_⟩
  rw [h1]
  simp [Stub.put]

/-- Witness for C2: registering the concrete alice payload (which carries a
non-empty keys field) stores the identity with keys emptied and answers with
its serialization. -/
theorem C2_register_forces_empty_keys_witness :
    Register testCodec emptyStub ["rA"] =
      (.success (testCodec.encIdentity { regAlicePayload with keys := [] }),
        emptyStub.put regAlicePayload.username
          (testCodec.encIdentity { regAlicePayload with keys := [] })) ∧
    ((Register testCodec emptyStub ["rA"]).2).state regAlicePayload.username =
      some (testCodec.encIdentity { regAlicePayload with keys := [] }) :=
  C2_register_forces_empty_keys testCodec emptyStub ["rA"] regAlicePayload rfl rfl

/-- C8: For every successful UpdateUserData invocation on a stored identity,
the persisted record differs from the prior record only in the data field:
username, publicKey, ePublicKey, sPublicKey, verified, and the keys sequence
are all unchanged (and no other username's entry is touched). -/
theorem C8_update_changes_only_data (C : CryptoModel) (c : Codec β) (st : Stub β)
    (args : List String) (r : updateUserDataRequest) (b : β) (i : Identity)
    (hdec : c.decUpdateUserDataRequest (args.getD 0 "") = some r)
    (hget : st.getFails r.username = false)
    (hb : st.state r.username = some b)
    (hi : c.decIdentityBytes b = some i)
    (hv : VerifySignature C args i.sPublicKey = .ok ())
    (hput : st.putErr i.username = none) :
    UpdateUserData C c st args =
      (.success (c.encIdentity { i with data := r.data }),
        st.put i.username (c.encIdentity { i with data := r.data })) ∧
    ({ i with data := r.data }).username = i.username ∧
    ({ i with data := r.data }).publicKey = i.publicKey ∧
    ({ i with data := r.data }).ePublicKey = i.ePublicKey ∧
    ({ i with data := r.data }).sPublicKey = i.sPublicKey ∧
    ({ i with data := r.data }).verified = i.verified ∧
    ({ i with data := r.data }).keys = i.keys ∧
    (∀ q, q ≠ i.username →
      ((UpdateUserData C c st args).2).state q = st.state q) := by
  have h1 : UpdateUserData C c st args =
      (.success (c.encIdentity { i with data := r.data }),
        st.put i.username (c.encIdentity { i with data := r.data })) := by
    unfold UpdateUserData updateUserDataBody
    rw [hdec, Option.getD_some, if_neg (by simp [hget]), hb]
    dsimp only
    rw [hi, Option.getD_some, hv]
    dsimp only
    rw [hput]
  refine ⟨h1, rfl, rfl, rfl, rfl, rfl, rfl, ?_⟩
  intro q hq
  rw [h1]
  simp [Stub.put, hq]

/-- Witness for C8: the concrete update of alice's data replaces only the
data field of the stored record. -/
theorem C8_update_changes_only_data_witness :
    UpdateUserData testCrypto testCodec stA ["uA", "00"] =
      (.success (testCodec.encIdentity { regAliceStored with data := "d2" }),
        stA.put regAliceStored.username
          (testCodec.encIdentity { regAliceStored with data := "d2" })) ∧
    ({ regAliceStored with data := "d2" }).username = regAliceStored.username ∧
    ({ regAliceStored with data := "d2" }).publicKey = regAliceStored.publicKey ∧
    ({ regAliceStored with data := "d2" }).ePublicKey = regAliceStored.ePublicKey ∧
    ({ regAliceStored with data := "d2" }).sPublicKey = regAliceStored.sPublicKey ∧
    ({ regAliceStored with data := "d2" }).verified = regAliceStored.verified ∧
    ({ regAliceStored with data := "d2" }).keys = regAliceStored.keys ∧
    (∀ q, q ≠ regAliceStored.username →
      ((UpdateUserData testCrypto testCodec stA ["uA", "00"]).2).state q = stA.state q) :=
  C8_update_changes_only_data testCrypto testCodec stA ["uA", "00"]
    ⟨"alice", "d2"⟩ (.ident regAliceStored) regAliceStored rfl rfl rfl rfl rfl rfl

/-- C9: For every handler, an args[0] payload that does not unmarshal is not
rejected with a parse error: the unmarshal error is ignored, the request
fields keep their zero values, and processing continues with those values; in
particular Register with an unparseable payload still succeeds and stores the
zero record under the empty username. -/
theorem C9_unmarshal_errors_ignored (C : CryptoModel) (c : Codec β) (st : Stub β)
    (args : List String) :
    (c.decIdentity (args.getD 0 "") = none → st.putErr "" = none →
      Register c st args =
        (.success (c.encIdentity zeroIdentity),
          st.put "" (c.encIdentity zeroIdentity))) ∧
    (c.decUpdateUserDataRequest (args.getD 0 "") = none →
      UpdateUserData C c st args = updateUserDataBody C c st args ⟨"", ""⟩) ∧
    (c.decAddKeyRequest (args.getD 0 "") = none →
      AddKey C c st args = addKeyBody C c st args ⟨"", "", ""⟩) ∧
    (c.decGetPublicKeyRequest (args.getD 0 "") = none →
      GetPublicKey c st args = getPublicKeyBody c st ⟨""⟩) ∧
    (c.decGetUserDataRequest (args.getD 0 "") = none →
      GetUserData c st args = getUserDataBody c st ⟨"", ""⟩) := by
  refine ⟨?_, ?_, ?_, ?_, ?_⟩
  · intro hdec hput
    have hput2 : st.putErr zeroIdentity.username = none := hput
    unfold Register registerBody
    rw [hdec, Option.getD_none]
    dsimp only
    rw [hput2]
    rfl
  · intro hdec
    unfold UpdateUserData
    rw [hdec, Option.getD_none]
  · intro hdec
    unfold AddKey
    rw [hdec, Option.getD_none]
  · intro hdec
    unfold GetPublicKey
    rw [hdec, Option.getD_none]
  · intro hdec
    unfold GetUserData
    rw [hdec, Option.getD_none]

/-- Witness for C9: the payload string used here unmarshals under none of the
request decoders, yet every handler proceeds with the zero request. -/
theorem C9_unmarshal_errors_ignored_witness :
    Register testCodec emptyStub ["junk"] =
      (.success (testCodec.encIdentity zeroIdentity),
        emptyStub.put "" (testCodec.encIdentity zeroIdentity)) ∧
    UpdateUserData testCrypto testCodec emptyStub ["junk"] =
      updateUserDataBody testCrypto testCodec emptyStub ["junk"] ⟨"", ""⟩ ∧
    AddKey testCrypto testCodec emptyStub ["junk"] =
      addKeyBody testCrypto testCodec emptyStub ["junk"] ⟨"", "", ""⟩ ∧
    GetPublicKey testCodec emptyStub ["junk"] =
      getPublicKeyBody testCodec emptyStub ⟨""⟩ ∧
    GetUserData testCodec emptyStub ["junk"] =
      getUserDataBody testCodec emptyStub ⟨"", ""⟩ :=
  ⟨(C9_unmarshal_errors_ignored testCrypto testCodec emptyStub ["junk"]).1 rfl rfl,
    (C9_unmarshal_errors_ignored testCrypto testCodec emptyStub ["junk"]).2.1 rfl,
    (C9_unmarshal_errors_ignored testCrypto testCodec emptyStub ["junk"]).2.2.1 rfl,
    (C9_unmarshal_errors_ignored testCrypto testCodec emptyStub ["junk"]).2.2.2.1 rfl,
    (C9_unmarshal_errors_ignored testCrypto testCodec emptyStub ["junk"]).2.2.2.2 rfl⟩

/-- The fold implementing the `for` loop of `GetUserData` computes the last
matching key, with the accumulator as default. -/
theorem foldl_key_eq_last_match (ks : List Key) (o : String) (a : String) :
    ks.foldl (fun acc k => if k.owner == o then k.key else acc) a =
      (match ks.reverse.find? (fun k => k.owner == o) with
        | some k => k.key
        | none => a) := by
  induction ks generalizing a with
  | nil => rfl
  | cons hd tl ih =>
    rw [List.foldl_cons, ih, List.reverse_cons, List.find?_append]
    cases hfind : tl.reverse.find? (fun k => k.owner == o) with
    | some k => simp
    | none =>
      cases ho : hd.owner == o with
      | true => simp [List.find?, ho]
      | false => simp [List.find?, ho]

/-- The loop of `GetUserData` computes `lastKeyFor`. -/
theorem foldl_key_eq_lastKeyFor (ks : List Key) (o : String) :
    ks.foldl (fun acc k => if k.owner == o then k.key else acc) "" =
      lastKeyFor ks o := by
  rw [foldl_key_eq_last_match]
  rfl

/-- C4: For every stored identity and every GetUserData request
{username, owner}, the key field of the response equals the key of the last
(most recently appended) entry in the identity's keys sequence whose owner
equals the requested owner, and equals the empty string when no entry
matches; a non-matching owner is not an error. -/
theorem C4_getUserData_returns_last_match (c : Codec β) (st : Stub β)
    (args : List String) (req : getUserDataRequest) (b : β) (i : Identity)
    (hdec : c.decGetUserDataRequest (args.getD 0 "") = some req)
    (hget : st.getFails req.username = false)
    (hb : st.state req.username = some b)
    (hi : c.decIdentityBytes b = some i) :
    GetUserData c st args =
      (.success (c.encGetUserDataResponse
        ⟨i.publicKey, i.ePublicKey, i.sPublicKey, i.data,
          lastKeyFor i.keys req.owner⟩), st) ∧
    ((∀ k ∈ i.keys, (k.owner == req.owner) = false) →
      lastKeyFor i.keys req.owner = "") := by
  constructor
  · unfold GetUserData getUserDataBody
    rw [hdec, Option.getD_some, if_neg (by simp [hget]), hb]
    dsimp only
    rw [hi, Option.getD_some, foldl_key_eq_lastKeyFor]
  · intro h
    unfold lastKeyFor
    rw [List.find?_eq_none.mpr]
    intro x hx
    simp [h x (List.mem_reverse.mp hx)]

/-- Witness for C4: after alice grants bob the key "K", the concrete lookup
for owner bob returns "K". -/
theorem C4_getUserData_returns_last_match_witness :
    GetUserData testCodec stAK ["dA"] =
      (.success (testCodec.encGetUserDataResponse
        ⟨"PK", "EPK", "AAAA", "d0",
          lastKeyFor [⟨"bob", "K"⟩] "bob"⟩), stAK) ∧
    ((∀ k ∈ [(⟨"bob", "K"⟩ : Key)], (k.owner == "bob") = false) →
      lastKeyFor [⟨"bob", "K"⟩] "bob" = "") :=
  C4_getUserData_returns_last_match testCodec stAK ["dA"] ⟨"alice", "bob"⟩
    (.ident ⟨"alice", "PK", "EPK", "AAAA", "d0", "yes", [⟨"bob", "K"⟩]⟩)
    ⟨"alice", "PK", "EPK", "AAAA", "d0", "yes", [⟨"bob", "K"⟩]⟩
    rfl rfl rfl rfl

set_option maxRecDepth 8000 in
/-- Counterexample for C7: for the unknown function name "Foo" with first
argument "bar", the dispatcher's error message quotes "bar" (the first
element of the argument list) and does not mention the received function
value "Foo" anywhere. -/
theorem C7_counterexample :
    (Invoke testCrypto testCodec emptyStub "Foo" ["bar"]).1 =
      .error "Unknown action, check the first argument, must be one of \x27Register\x27, \x27GetPublicKey\x27. But got: bar" ∧
    ¬ strMentions
      "Unknown action, check the first argument, must be one of \x27Register\x27, \x27GetPublicKey\x27. But got: bar"
      "Foo" ∧
    strMentions
      "Unknown action, check the first argument, must be one of \x27Register\x27, \x27GetPublicKey\x27. But got: bar"
      "bar" := by
  refine ⟨by decide, ?_, ?_⟩
  · unfold strMentions
    decide
  · unfold strMentions
    decide

/-- C7 (amended): for every function name outside the five handler names, the
dispatcher returns the unknown-action error, whose message names the first
element of the argument list (args[0]) rather than the received function
value, and leaves the state unchanged; dispatch happens only on an exact
string match. -/
theorem C7_unknown_function_error (C : CryptoModel) (c : Codec β) (st : Stub β)
    (f : String) (args : List String)
    (hf : f ∉ ["Register", "UpdateUserData", "AddKey", "GetPublicKey", "GetUserData"]) :
    Invoke C c st f args =
      (.error ("Unknown action, check the first argument, must be one of \x27Register\x27, \x27GetPublicKey\x27. But got: " ++ args.getD 0 ""), st) ∧
    strMentions
      ("Unknown action, check the first argument, must be one of \x27Register\x27, \x27GetPublicKey\x27. But got: " ++ args.getD 0 "")
      (args.getD 0 "") := by
  simp only [List.mem_cons, List.mem_singleton, not_or] at hf
  obtain ⟨h1, h2, h3, h4, h5, -⟩ := hf
  constructor
  · unfold Invoke
    rw [if_neg h1, if_neg h2, if_neg h3, if_neg h4, if_neg h5]
  · exact ⟨"Unknown action, check the first argument, must be one of \x27Register\x27, \x27GetPublicKey\x27. But got: ".data,
      [], by simp [String.data_append]⟩

/-- Witness for C7 (amended): the concrete unknown invocation. -/
theorem C7_unknown_function_error_witness :
    Invoke testCrypto testCodec emptyStub "Foo" ["bar"] =
      (.error ("Unknown action, check the first argument, must be one of \x27Register\x27, \x27GetPublicKey\x27. But got: " ++ "bar"), emptyStub) ∧
    strMentions
      ("Unknown action, check the first argument, must be one of \x27Register\x27, \x27GetPublicKey\x27. But got: " ++ "bar")
      "bar" :=
  C7_unknown_function_error testCrypto testCodec emptyStub "Foo" ["bar"] (by decide)

/-- Counterexample for C6: the claim requires a key-format failure whenever
the public key string fails base64 decoding, but the source overwrites the
base64 error before checking it (`pkBytes, err := base64...; pk, err :=
x509.ParsePKIXPublicKey(pkBytes)`), so the partially decoded bytes are fed
to the parser.  For the key string "AAAA!": base64 decoding fails (the "!"
is a corrupt input) yet the bytes of the complete leading quantum,
`[0, 0, 0]`, are returned, and with a crypto model under which those bytes
parse as an RSA key and the signature verifies, `VerifySignature` succeeds
instead of failing with the key-format error. -/
theorem C6_counterexample :
    (base64DecodeString "AAAA!").2 = false ∧
    VerifySignature testCrypto ["m", ""] "AAAA!" = .ok () ∧
    VerifySignature testCrypto ["m", ""] "AAAA!" ≠ .error .keyFormat := by
  refine ⟨by decide, rfl, ?_⟩
  intro h
  rw [show VerifySignature testCrypto ["m", ""] "AAAA!" = .ok () from rfl] at h
  exact Except.noConfusion h

/-- C6 (amended): VerifySignature fails with an encoding error exactly when
the signature string is not valid hexadecimal; otherwise, with the base64
error of the public key decode discarded and the bytes decoded before any
error used, it fails with a key-format error exactly when X.509 parsing of
those bytes fails; fails with an unsupported-key-type error exactly when the
parsed key is not RSA; and otherwise succeeds or fails with a
signature-invalid error according to RSASSA-PKCS1-v1_5 verification of the
SHA-256 digest of the message — with the checks applied in that order. -/
theorem C6_verify_error_order (C : CryptoModel) (args : List String) (pk : String) :
    (VerifySignature C args pk = .error .encoding ↔
      hexDecodeString (args.getD 1 "") = none) ∧
    (VerifySignature C args pk = .error .keyFormat ↔
      hexDecodeString (args.getD 1 "") ≠ none ∧
      C.parsePKIX (base64DecodeString pk).1 = none) ∧
    (VerifySignature C args pk = .error .notRSA ↔
      hexDecodeString (args.getD 1 "") ≠ none ∧
      C.parsePKIX (base64DecodeString pk).1 = some .other) ∧
    (VerifySignature C args pk = .ok () ↔
      ∃ s k, hexDecodeString (args.getD 1 "") = some s ∧
        C.parsePKIX (base64DecodeString pk).1 = some (.rsa k) ∧
        C.verifyPKCS1v15 k (args.getD 0 "") s = true) ∧
    (VerifySignature C args pk = .error .sigInvalid ↔
      ∃ s k, hexDecodeString (args.getD 1 "") = some s ∧
        C.parsePKIX (base64DecodeString pk).1 = some (.rsa k) ∧
        C.verifyPKCS1v15 k (args.getD 0 "") s = false) := by
  unfold VerifySignature
  cases hhex : hexDecodeString (args.getD 1 "") with
  | none => simp
  | some s =>
    dsimp only
    cases hpk : C.parsePKIX (base64DecodeString pk).1 with
    | none => simp
    | some pkv =>
      cases pkv with
      | rsa k =>
        dsimp only
        cases hv : C.verifyPKCS1v15 k (args.getD 0 "") s with
        | true => simpa using hv
        | false => simpa using hv
      | other => simp

/-- Handler-level form: `GetPublicKey` never writes. -/
theorem GetPublicKey_state (c : Codec β) (st : Stub β) (args : List String) :
    (GetPublicKey c st args).2 = st :=
  getPublicKeyBody_state c st _

/-- Handler-level form: `GetUserData` never writes. -/
theorem GetUserData_state (c : Codec β) (st : Stub β) (args : List String) :
    (GetUserData c st args).2 = st :=
  getUserDataBody_state c st _

/-- Writing a marshalled identity under its own username preserves stub
well-formedness. -/
theorem wf_put_enc (c : Codec β) (hrt : c.RoundTrip) {st : Stub β}
    (hwf : WFStub c st) (i : Identity) {k0 : String} (hk0 : k0 = i.username) :
    WFStub c (st.put k0 (c.encIdentity i)) := by
  subst hk0
  intro k b hb
  unfold Stub.put at hb
  dsimp only at hb
  by_cases hk : k = i.username
  · rw [if_pos hk] at hb
    have hb2 := Option.some.inj hb
    subst hb2
    exact ⟨i, hrt i, hk.symm⟩
  · rw [if_neg hk] at hb
    exact hwf k b hb

/-- `Register` preserves stub well-formedness. -/
theorem wf_register (c : Codec β) (hrt : c.RoundTrip) {st : Stub β}
    (hwf : WFStub c st) (args : List String) :
    WFStub c (Register c st args).2 := by
  unfold Register registerBody
  dsimp only
  split
  · exact hwf
  · dsimp only
    refine wf_put_enc c hrt hwf _ ?_
    rfl

/-- `UpdateUserData` preserves stub well-formedness. -/
theorem wf_updateUserData (C : CryptoModel) (c : Codec β) (hrt : c.RoundTrip)
    {st : Stub β} (hwf : WFStub c st) (args : List String) :
    WFStub c (UpdateUserData C c st args).2 := by
  unfold UpdateUserData updateUserDataBody
  dsimp only
  split
  · exact hwf
  · split
    · exact hwf
    · split
      · exact hwf
      · split
        · exact hwf
        · dsimp only
          refine wf_put_enc c hrt hwf _ ?_
          rfl

/-- `AddKey` preserves stub well-formedness. -/
theorem wf_addKey (C : CryptoModel) (c : Codec β) (hrt : c.RoundTrip)
    {st : Stub β} (hwf : WFStub c st) (args : List String) :
    WFStub c (AddKey C c st args).2 := by
  unfold AddKey addKeyBody
  dsimp only
  split
  · exact hwf
  · split
    · exact hwf
    · split
      · exact hwf
      · split
        · exact hwf
        · dsimp only
          refine wf_put_enc c hrt hwf _ ?_
          rfl

/-- Every `Invoke` step preserves stub well-formedness. -/
theorem wf_invoke (C : CryptoModel) (c : Codec β) (hrt : c.RoundTrip)
    {st : Stub β} (hwf : WFStub c st) (f : String) (args : List String) :
    WFStub c (Invoke C c st f args).2 := by
  unfold Invoke
  split_ifs
  · exact wf_register c hrt hwf args
  · exact wf_updateUserData C c hrt hwf args
  · exact wf_addKey C c hrt hwf args
  · rw [GetPublicKey_state]; exact hwf
  · rw [GetUserData_state]; exact hwf
  · exact hwf

/-- Every reachable stub is well-formed (for a round-tripping codec). -/
theorem reachable_wf (C : CryptoModel) (c : Codec β) (hrt : c.RoundTrip)
    {st : Stub β} (h : Reachable C c st) : WFStub c st := by
  induction h with
  | init g p => intro k b hb; exact Option.noConfusion hb
  | step f args hst ih => exact wf_invoke C c hrt ih f args

/-- `keysAt` after a `put`. -/
theorem keysAt_put (c : Codec β) (st : Stub β) (k : String) (v : β) (q : String) :
    keysAt c (st.put k v) q =
      (if q = k then ((c.decIdentityBytes v).getD zeroIdentity).keys
       else keysAt c st q) := by
  unfold keysAt Stub.put
  dsimp only
  by_cases h : q = k
  · rw [if_pos h, if_pos h]
  · rw [if_neg h, if_neg h]

/-- Storing, under its own username, an identity whose keys extend those of
the identity currently stored there only grows `keysAt`. -/
theorem keysAt_put_mono (c : Codec β) {st : Stub β} {k0 k1 : String} {iB : β}
    {j i2 : Identity}
    (hB : st.state k0 = some iB) (hj : c.decIdentityBytes iB = some j)
    (hju : j.username = k0) (henc : c.decIdentityBytes (c.encIdentity i2) = some i2)
    (hkeys : j.keys <+: i2.keys) (hu : i2.username = j.username)
    (hk1 : k1 = i2.username) (q : String) :
    keysAt c st q <+: keysAt c (st.put k1 (c.encIdentity i2)) q := by
  subst hk1
  rw [keysAt_put]
  by_cases hq : q = i2.username
  · rw [if_pos hq, henc, Option.getD_some]
    have hqk : q = k0 := by rw [hq, hu, hju]
    rw [hqk]
    unfold keysAt
    rw [hB]
    dsimp only
    rw [hj, Option.getD_some]
    exact hkeys
  · rw [if_neg hq]

/-- `UpdateUserData` never changes any stored keys sequence. -/
theorem updateUserData_keys_mono (C : CryptoModel) (c : Codec β) (hrt : c.RoundTrip)
    {st : Stub β} (hwf : WFStub c st) (args : List String) (q : String) :
    keysAt c st q <+: keysAt c (UpdateUserData C c st args).2 q := by
  unfold UpdateUserData updateUserDataBody
  dsimp only
  split
  · exact List.prefix_refl _
  · split
    · exact List.prefix_refl _
    · rename_i iB hB
      obtain ⟨j, hj, hju⟩ := hwf _ _ hB
      rw [hj, Option.getD_some]
      split
      · exact List.prefix_refl _
      · split
        · exact List.prefix_refl _
        · dsimp only
          refine keysAt_put_mono c hB hj hju (hrt _) ?_ ?_ ?_ q
          · exact List.prefix_refl _
          · rfl
          · rfl

/-- `AddKey` only appends to the stored keys sequence. -/
theorem addKey_keys_mono (C : CryptoModel) (c : Codec β) (hrt : c.RoundTrip)
    {st : Stub β} (hwf : WFStub c st) (args : List String) (q : String) :
    keysAt c st q <+: keysAt c (AddKey C c st args).2 q := by
  unfold AddKey addKeyBody
  dsimp only
  split
  · exact List.prefix_refl _
  · split
    · exact List.prefix_refl _
    · rename_i iB hB
      obtain ⟨j, hj, hju⟩ := hwf _ _ hB
      rw [hj, Option.getD_some]
      split
      · exact List.prefix_refl _
      · split
        · exact List.prefix_refl _
        · dsimp only
          refine keysAt_put_mono c hB hj hju (hrt _) ?_ ?_ ?_ q
          · exact List.prefix_append _ _
          · rfl
          · rfl

/-- Counterexample for C5: `Register` is one of the defined operations, and
re-registering a username whose stored record has non-empty keys resets the
keys sequence to empty — the prior sequence is not a prefix of the new one.
The failing state is reachable: Register alice, then AddKey for bob. -/
theorem C5_counterexample :
    Reachable testCrypto testCodec stAK ∧
    keysAt testCodec stAK "alice" = [⟨"bob", "K"⟩] ∧
    keysAt testCodec (Invoke testCrypto testCodec stAK "Register" ["rA"]).2 "alice" = [] ∧
    ¬ (keysAt testCodec stAK "alice" <+:
        keysAt testCodec (Invoke testCrypto testCodec stAK "Register" ["rA"]).2 "alice") := by
  refine ⟨?_, by decide, by decide, by decide⟩
  exact .step "AddKey" ["aK", "00"]
    (.step "Register" ["rA"] (.init (fun _ => false) (fun _ => none)))

/-- C5 (amended): for every reachable ledger state and every defined
operation other than Register (UpdateUserData, AddKey, GetPublicKey,
GetUserData — and any unknown function), the keys sequence of any stored
identity never shrinks: the prior sequence is a prefix of the new one.
Register is excluded: it unconditionally overwrites the record, resetting
keys to empty. -/
theorem C5_keys_monotone_except_register (C : CryptoModel) (c : Codec β) {st : Stub β}
    (hrt : c.RoundTrip) (hreach : Reachable C c st) (f : String) (args : List String)
    (hf : f ≠ "Register") (q : String) :
    keysAt c st q <+: keysAt c (Invoke C c st f args).2 q := by
  have hwf := reachable_wf C c hrt hreach
  unfold Invoke
  split_ifs with h1 h2 h3 h4 h5
  · exact absurd h1 hf
  · exact updateUserData_keys_mono C c hrt hwf args q
  · exact addKey_keys_mono C c hrt hwf args q
  · rw [GetPublicKey_state]
  · rw [GetUserData_state]
  · exact List.prefix_refl _

/-- Witness for C5 (amended): a concrete AddKey step on a reachable state
only extends alice's keys. -/
theorem C5_keys_monotone_except_register_witness :
    keysAt testCodec stAK "alice" <+:
      keysAt testCodec (Invoke testCrypto testCodec stAK "AddKey" ["aK", "00"]).2 "alice" :=
  C5_keys_monotone_except_register testCrypto testCodec (fun _ => rfl)
    (.step "AddKey" ["aK", "00"]
      (.step "Register" ["rA"] (.init (fun _ => false) (fun _ => none))))
    "AddKey" ["aK", "00"] (by decide) "alice"

end Dewallet
